import Mathlib

/-!
Verification development for the GreynirTopic topic-model pipeline.

The Lean definitions below are a shallow embedding of the Python source:

* `w_from_lemma` embeds `tuplemodel.w_from_lemma` (the lemma-key normalizer);
  Python `str.lower` is modelled by `Char.toLower` (the basic-latin case map:
  the embedding is exact on the ASCII fragment, and non-ASCII letters are
  treated as case-fixed).
* `buildDictionary` / `filter_extremes` / `train_dictionary` embed the
  gensim-backed dictionary construction of `Model.train_dictionary`
  (`model.py`), with document frequencies and the `no_below`/`no_above`
  pruning rule; `int(no_above * num_docs)` is modelled with the rational
  floor, which agrees with Python `int()` truncation on non-negative values.
* `corpusIteratorKeys` / `corpusIteratorBow` embed `CorpusIterator.__iter__`
  (`model.py`): materialize each document's lemma list, skip empty ones,
  and apply either the identity transform or `doc2bow`.
* `Model_topic_vector` / `TupleModel_topic_vector` embed the inference
  entry points, with on-disk/in-memory artifacts modelled as `Option`s
  (a `none` artifact makes the lazy load fail, matching the fatal
  missing-artifact load) and fatal conditions modelled as `Except.error`.
* `Model_train_fs` embeds the file-system effect of the composite
  `Model.train`: which artifact files exist before and after training.
* `cossim` embeds `gensim.matutils.cossim` (the body of
  `Model.similarity`) over real numbers, following the library's
  dict-conversion, empty checks, dot product and norm computation.
-/

namespace GreynirTopic

/-! ## Lemma key normalization (tuplemodel.py, `w_from_lemma`) -/

/-- Model of Python `lemma.lower()`: lower-case every character. -/
def str_lower (s : String) : String :=
  ⟨s.data.map Char.toLower⟩

/-- Model of Python `s.replace("-", "")`: remove every hyphen. -/
def remove_hyphens (s : String) : String :=
  ⟨s.data.filter (fun c => c != '-')⟩

/-- Model of Python `s.replace(" ", "_")`: replace every space by an underscore. -/
def spaces_to_underscores (s : String) : String :=
  ⟨s.data.map (fun c => if c == ' ' then '_' else c)⟩

/-- The lemma part of the normalizer: `lemma.lower().replace("-", "").replace(" ", "_")`. -/
def norm_lemma (s : String) : String :=
  spaces_to_underscores (remove_hyphens (str_lower s))

/-- Embedding of `w_from_lemma` (tuplemodel.py):
`lemma.lower().replace("-", "").replace(" ", "_") + "/" + cat`
(the Python parameter `lemma` is called `lem` here). -/
def w_from_lemma (lem cat : String) : String :=
  norm_lemma lem ++ "/" ++ cat

/-- The normalizer as the specification words it: one pass over the lemma,
lower-casing each character, dropping hyphens and turning spaces into
underscores, then appending "/" and the category. -/
def normalize_spec (lem cat : String) : String :=
  ⟨lem.data.filterMap (fun c =>
    if Char.toLower c == '-' then none
    else some (if Char.toLower c == ' ' then '_' else Char.toLower c))⟩ ++ "/" ++ cat

lemma norm_chars_eq (l : List Char) :
    ((l.map Char.toLower).filter (fun c => c != '-')).map (fun c => if c == ' ' then '_' else c)
      = l.filterMap (fun c =>
          if Char.toLower c == '-' then none
          else some (if Char.toLower c == ' ' then '_' else Char.toLower c)) := by
  induction l with
  | nil => rfl
  | cons c l ih =>
    simp only [beq_iff_eq] at ih
    by_cases h : Char.toLower c = '-' <;>
      simp [List.filter_cons, List.filterMap_cons, h, ih]

/-- Characters below `0xd800` are valid unicode scalar values,
and `Char.ofNat` is then a section of `Char.toNat`. -/
lemma char_toNat_ofNat_of_lt {n : Nat} (h : n < 55296) : (Char.ofNat n).toNat = n := by
  rw [Char.ofNat, dif_pos (Or.inl h)]
  rfl

/-- The basic-latin lower-case map is idempotent. -/
lemma char_toLower_toLower (c : Char) : c.toLower.toLower = c.toLower := by
  simp only [Char.toLower]
  by_cases h : c.toNat ≥ 65 ∧ c.toNat ≤ 90
  · rw [if_pos h, char_toNat_ofNat_of_lt (by omega), if_neg (by omega)]
  · rw [if_neg h, if_neg h]

/-- Lower-casing an upper-cased character gives the same result as
lower-casing the character itself. -/
lemma char_toLower_toUpper (c : Char) : c.toUpper.toLower = c.toLower := by
  simp only [Char.toLower, Char.toUpper]
  by_cases h : c.toNat ≥ 97 ∧ c.toNat ≤ 122
  · rw [if_pos h, char_toNat_ofNat_of_lt (by omega), if_pos (by omega),
      if_neg (by omega)]
    have h32 : c.toNat - 32 + 32 = c.toNat := by omega
    rw [h32, Char.ofNat_toNat]
  · rw [if_neg h]

/-- The character-list form of the lemma transformation. -/
def norm_chars (l : List Char) : List Char :=
  ((l.map Char.toLower).filter (fun c => c != '-')).map (fun c => if c == ' ' then '_' else c)

lemma norm_lemma_eq_norm_chars (s : String) : norm_lemma s = ⟨norm_chars s.data⟩ := rfl

/-- A character is normal when it is fixed by lower-casing and is neither
a hyphen nor a space; `norm_chars` only emits normal characters. -/
def normalChar (d : Char) : Prop := d.toLower = d ∧ d ≠ '-' ∧ d ≠ ' '

lemma norm_chars_normal {l : List Char} : ∀ d ∈ norm_chars l, normalChar d := by
  intro d hd
  simp only [norm_chars, List.mem_map, List.mem_filter] at hd
  obtain ⟨e, ⟨⟨c, _, hc⟩, hne⟩, hsp⟩ := hd
  have he : e ≠ '-' := by simpa using hne
  by_cases h : e = ' '
  · subst hsp
    simp only [h]
    refine ⟨by decide, by decide, by decide⟩
  · have : d = e := by rw [← hsp]; simp [h]
    subst this
    exact ⟨by rw [← hc]; exact char_toLower_toLower c, he, h⟩

lemma norm_chars_of_normal : ∀ m : List Char, (∀ d ∈ m, normalChar d) → norm_chars m = m := by
  intro m
  induction m with
  | nil => intro _; rfl
  | cons d m ih =>
    intro h
    obtain ⟨h1, h2, h3⟩ := h d (List.mem_cons_self _ _)
    have ih' := ih (fun e he => h e (List.mem_cons_of_mem _ he))
    simp only [norm_chars, List.map_cons, h1, List.filter_cons] at ih' ⊢
    rw [if_pos (by simpa using h2)]
    simp only [List.map_cons]
    rw [if_neg (by simpa using h3)]
    rw [ih']

lemma norm_chars_idem (l : List Char) : norm_chars (norm_chars l) = norm_chars l :=
  norm_chars_of_normal _ norm_chars_normal

lemma norm_chars_append (a b : List Char) :
    norm_chars (a ++ b) = norm_chars a ++ norm_chars b := by
  simp [norm_chars, List.filter_append]

lemma norm_chars_map_toUpper (l : List Char) :
    norm_chars (l.map Char.toUpper) = norm_chars l := by
  have hf : (Char.toLower ∘ Char.toUpper) = Char.toLower := funext char_toLower_toUpper
  simp only [norm_chars, List.map_map, hf]

lemma norm_chars_cons_hyphen (l : List Char) : norm_chars ('-' :: l) = norm_chars l := by
  have h : Char.toLower '-' = '-' := by decide
  simp [norm_chars, List.filter_cons, h]

lemma norm_chars_cons_space (l : List Char) : norm_chars (' ' :: l) = '_' :: norm_chars l := by
  have h : Char.toLower ' ' = ' ' := by decide
  simp [norm_chars, List.filter_cons, h]

lemma norm_chars_cons_underscore (l : List Char) : norm_chars ('_' :: l) = '_' :: norm_chars l := by
  have h : Char.toLower '_' = '_' := by decide
  simp [norm_chars, List.filter_cons, h]

/-- C1: for every lemma string and category string, `w_from_lemma` returns
exactly the lower-cased lemma with every hyphen removed and every space
replaced by an underscore, concatenated with "/" and the category
(`normalize_spec` is that description as a single character pass); as a
Lean function the normalizer is pure, total and deterministic. -/
theorem w_from_lemma_correct : ∀ lem cat : String, w_from_lemma lem cat = normalize_spec lem cat := by
  intro lem cat
  have h := norm_chars_eq lem.data
  apply String.ext
  simp only [w_from_lemma, normalize_spec, norm_lemma, spaces_to_underscores,
    remove_hyphens, str_lower, String.data_append]
  simp only [beq_iff_eq] at h
  simp [h]

/-- C9: the lemma transformation is idempotent (re-applying it to an
already-normalized lemma changes nothing), and case, hyphen and space
variants of the same lemma collapse to one identical key: inserting a
hyphen does not change the key, a space produces the same key as an
underscore, and upper-casing the lemma produces the same key. -/
theorem normalize_idempotent_and_variants_collapse :
    (∀ s : String, norm_lemma (norm_lemma s) = norm_lemma s)
    ∧ (∀ s t cat : String, w_from_lemma (s ++ "-" ++ t) cat = w_from_lemma (s ++ t) cat)
    ∧ (∀ s t cat : String, w_from_lemma (s ++ " " ++ t) cat = w_from_lemma (s ++ "_" ++ t) cat)
    ∧ (∀ s cat : String, w_from_lemma ⟨s.data.map Char.toUpper⟩ cat = w_from_lemma s cat) := by
  refine ⟨?_, ?_, ?_, ?_⟩
  · intro s
    rw [norm_lemma_eq_norm_chars s, norm_lemma_eq_norm_chars]
    exact congrArg String.mk (norm_chars_idem s.data)
  · intro s t cat
    simp only [w_from_lemma, norm_lemma_eq_norm_chars]
    congr 2
    simp [String.data_append, norm_chars_append, norm_chars_cons_hyphen]
  · intro s t cat
    simp only [w_from_lemma, norm_lemma_eq_norm_chars]
    congr 2
    simp [String.data_append, norm_chars_append, norm_chars_cons_space,
      norm_chars_cons_underscore]
  · intro s cat
    simp only [w_from_lemma, norm_lemma_eq_norm_chars]
    congr 2
    exact congrArg String.mk (norm_chars_map_toUpper s.data)

/-! ## Dictionary and corpus iteration (model.py) -/

/-- Embedding of the gensim dictionary as used by `Model.train_dictionary`:
the vocabulary key list (a key's integer id is its position; gensim's exact
per-document sorted id-assignment order is abstracted, no claim depends on
it), the number of processed documents and the per-key document frequency. -/
structure Dictionary where
  tokens : List String
  num_docs : Nat
  dfs : String → Nat

/-- Document frequency of key `k`: the number of documents containing `k`. -/
def docFreq (docs : List (List String)) (k : String) : Nat :=
  docs.countP (fun d => d.contains k)

/-- Embedding of `Dictionary(corpus_iterator)` (gensim `corpora.Dictionary`
built in one pass over the iterator's output): vocabulary = all distinct
keys, `num_docs` = number of processed documents, `dfs` = document
frequencies. -/
def buildDictionary (docs : List (List String)) : Dictionary :=
  { tokens := docs.flatten.dedup
    num_docs := docs.length
    dfs := fun k => docFreq docs k }

/-- Embedding of gensim `filter_extremes(no_below, no_above, keep_n=None)`:
keep exactly the keys whose document frequency `df` satisfies
`no_below ≤ df ≤ int(no_above * num_docs)`, re-densifying ids
(`compactify`); `keep_n=None` means no size cap. -/
def filter_extremes (dic : Dictionary) (no_below : Nat) (no_above : ℚ) : Dictionary :=
  { tokens := dic.tokens.filter (fun t =>
      decide (no_below ≤ dic.dfs t ∧ (dic.dfs t : ℤ) ≤ ⌊no_above * dic.num_docs⌋))
    num_docs := dic.num_docs
    dfs := dic.dfs }

/-- The message of the fatal `assert len(dic.token2id) > 0`. -/
def emptyVocabMsg : String := "assert failed: len(dic.token2id) > 0"

/-- Embedding of `Model.train_dictionary(corpus_iterator, min_count, max_ratio)`
(model.py): build the dictionary, prune it when `min_count > 0 or
max_ratio < 1.0`, and fail fatally when the resulting vocabulary is empty
(the `assert` fires before `dic.save`, so nothing is persisted).
The `max_ratio` parameter is called `maxr` here. -/
def train_dictionary (corpus_iterator : List (List String)) (min_count : Nat) (maxr : ℚ) :
    Except String Dictionary :=
  let dic := buildDictionary corpus_iterator
  let dic2 := if 0 < min_count ∨ maxr < 1 then filter_extremes dic min_count maxr else dic
  if dic2.tokens.length > 0 then Except.ok dic2 else Except.error emptyVocabMsg

/-- Embedding of `CorpusIterator.__iter__` without a dictionary
(`xform = identity`): materialize each document's lemma list and yield it
when it is non-empty; empty documents are skipped. -/
def corpusIteratorKeys (corpus : List (List String)) : List (List String) :=
  corpus.filter (fun d => !d.isEmpty)

/-- Embedding of gensim `doc2bow`: the sparse count vector of a document,
listing `(id, count)` in id order for each vocabulary key with a positive
count in the document; keys absent from the dictionary are dropped silently. -/
def doc2bow (dic : Dictionary) (doc : List String) : List (Nat × Nat) :=
  dic.tokens.enum.filterMap (fun p =>
    if doc.count p.2 = 0 then none else some (p.1, doc.count p.2))

/-- Embedding of `CorpusIterator.__iter__` with a dictionary
(`xform = doc2bow`): one bag-of-words per non-empty document. -/
def corpusIteratorBow (corpus : List (List String)) (dic : Dictionary) : List (List (Nat × Nat)) :=
  (corpus.filter (fun d => !d.isEmpty)).map (fun d => doc2bow dic d)

lemma countP_not_isEmpty (corpus : List (List String)) :
    corpus.countP (fun d => !d.isEmpty) = corpus.length - corpus.countP (fun d => d.isEmpty) := by
  induction corpus with
  | nil => rfl
  | cons d c ih =>
    have hle : c.countP (fun d => (d : List String).isEmpty) ≤ c.length :=
      List.countP_le_length _
    cases hd : d.isEmpty
    all_goals simp [List.countP_cons, hd, ih]
    all_goals omega

lemma train_dictionary_error_of_pruned_empty (ci : List (List String)) (mc : Nat) (maxr : ℚ)
    (hp : 0 < mc ∨ maxr < 1)
    (hempty : (filter_extremes (buildDictionary ci) mc maxr).tokens = []) :
    train_dictionary ci mc maxr = Except.error emptyVocabMsg := by
  simp only [train_dictionary]
  rw [if_pos hp]
  simp [hempty]

lemma filter_extremes_tokens_nil_of_df_lt (ci : List (List String)) (mc : Nat) (maxr : ℚ)
    (h : ∀ k ∈ ci.flatten, docFreq ci k < mc) :
    (filter_extremes (buildDictionary ci) mc maxr).tokens = [] := by
  simp only [filter_extremes, buildDictionary]
  rw [List.filter_eq_nil_iff]
  intro t ht
  have htf : t ∈ ci.flatten := List.mem_dedup.mp ht
  have := h t htf
  simp only [decide_eq_true_eq, not_and]
  intro hmc
  omega

/-- C2: dictionary training fails with a fatal error (an `Except.error`:
no dictionary is returned and the `assert` fires before `dic.save`, so
nothing is persisted) whenever the vocabulary is empty after pruning; in
particular, over any corpus in which every key occurs in exactly one
document, `min_count = 2` (with the default `max_ratio = 0.5`) raises the
fatal empty-vocabulary condition. -/
theorem train_dictionary_empty_vocabulary_fatal :
    (∀ (ci : List (List String)) (mc : Nat) (maxr : ℚ), (0 < mc ∨ maxr < 1) →
      (filter_extremes (buildDictionary ci) mc maxr).tokens = [] →
      train_dictionary ci mc maxr = Except.error emptyVocabMsg)
    ∧ (∀ ci : List (List String),
      (∀ k ∈ ci.flatten, docFreq ci k = 1) →
      train_dictionary ci 2 (1/2) = Except.error emptyVocabMsg) := by
  refine ⟨train_dictionary_error_of_pruned_empty, fun ci h => ?_⟩
  refine train_dictionary_error_of_pruned_empty ci 2 (1/2) (Or.inl (by norm_num)) ?_
  exact filter_extremes_tokens_nil_of_df_lt ci 2 (1/2)
    (fun k hk => by rw [h k hk]; norm_num)

theorem train_dictionary_empty_vocabulary_fatal_witness :
    ((0 : Nat) < 2 ∨ (1/2 : ℚ) < 1)
    ∧ (∀ k ∈ ([["a/kk"], ["b/kk"]] : List (List String)).flatten,
        docFreq [["a/kk"], ["b/kk"]] k = 1)
    ∧ train_dictionary [["a/kk"], ["b/kk"]] 2 (1/2) = Except.error emptyVocabMsg :=
  ⟨Or.inl (by norm_num), by decide,
    train_dictionary_empty_vocabulary_fatal.2 [["a/kk"], ["b/kk"]] (by decide)⟩

/-- C3: the corpus iterator yields exactly one element per document that
produces at least one lemma (in both modes: raw key lists and
bags-of-words); a document producing zero lemmas is skipped entirely and
never represented as an empty key-list element; hence over a corpus with
exactly one empty document, the built vocabulary counts (and the frequency
corpus contains) one fewer document than the corpus's document count. -/
theorem corpus_iterator_skips_empty_documents :
    (∀ corpus : List (List String),
      (corpusIteratorKeys corpus).length = corpus.countP (fun d => !d.isEmpty)
      ∧ ∀ dic : Dictionary,
        (corpusIteratorBow corpus dic).length = corpus.countP (fun d => !d.isEmpty))
    ∧ (∀ corpus : List (List String), ([] : List String) ∉ corpusIteratorKeys corpus)
    ∧ (∀ corpus : List (List String), corpus.countP (fun d => d.isEmpty) = 1 →
        (buildDictionary (corpusIteratorKeys corpus)).num_docs = corpus.length - 1
        ∧ ∀ dic : Dictionary, (corpusIteratorBow corpus dic).length = corpus.length - 1) := by
  have hlen : ∀ corpus : List (List String),
      (corpusIteratorKeys corpus).length = corpus.countP (fun d => !d.isEmpty) := by
    intro corpus
    simp [corpusIteratorKeys, List.countP_eq_length_filter]
  have hbow : ∀ (corpus : List (List String)) (dic : Dictionary),
      (corpusIteratorBow corpus dic).length = corpus.countP (fun d => !d.isEmpty) := by
    intro corpus dic
    simp [corpusIteratorBow, List.countP_eq_length_filter]
  refine ⟨fun corpus => ⟨hlen corpus, hbow corpus⟩, ?_, ?_⟩
  · intro corpus hmem
    have := (List.mem_filter.mp hmem).2
    simp at this
  · intro corpus h1
    have hnum : (buildDictionary (corpusIteratorKeys corpus)).num_docs
        = corpus.length - 1 := by
      simp only [buildDictionary, corpusIteratorKeys]
      rw [← List.countP_eq_length_filter, countP_not_isEmpty, h1]
    exact ⟨hnum, fun dic => by rw [hbow corpus dic, countP_not_isEmpty, h1]⟩

theorem corpus_iterator_skips_empty_documents_witness :
    ([["a/kk"], [], ["b/kk"]] : List (List String)).countP (fun d => d.isEmpty) = 1
    ∧ (buildDictionary (corpusIteratorKeys [["a/kk"], [], ["b/kk"]])).num_docs
        = ([["a/kk"], [], ["b/kk"]] : List (List String)).length - 1 :=
  ⟨by decide,
    (corpus_iterator_skips_empty_documents.2.2 [["a/kk"], [], ["b/kk"]] (by decide)).1⟩

/-! ## Inference: topic_vector (model.py / tuplemodel.py) -/

/-- Model of a lazily loaded artifact slot: `some` when the artifact is in
memory or present on disk, `none` when it is absent, making the load fail
fatally (the `load_*` methods raise when the file is missing). -/
def loadArtifact {α : Type} (a : Option α) (err : String) : Except String α :=
  match a with
  | some x => Except.ok x
  | none => Except.error err

def missingDictionaryMsg : String := "cannot load dictionary file"

def missingTfidfMsg : String := "cannot load tfidf model file"

def missingLsiMsg : String := "cannot load lsi model file"

/-- Embedding of `Model.topic_vector(lemmas)` (model.py). The TF-IDF and
LSI transforms are external gensim functions, kept abstract as parameters
of types `List (Nat × Nat) → W` and `W → List T`; an empty input returns
`[]` before any artifact is touched; an all-unknown input yields an empty
bag and returns `[]`; otherwise the two transforms are applied. -/
def Model_topic_vector {W T : Type} (dict : Option Dictionary)
    (tfidf : Option (List (Nat × Nat) → W)) (lsi : Option (W → List T))
    (lemmas : List String) : Except String (List T) :=
  if lemmas.isEmpty then Except.ok []
  else
    match loadArtifact dict missingDictionaryMsg with
    | Except.error e => Except.error e
    | Except.ok d =>
      match loadArtifact tfidf missingTfidfMsg with
      | Except.error e => Except.error e
      | Except.ok tf =>
        match loadArtifact lsi missingLsiMsg with
        | Except.error e => Except.error e
        | Except.ok ls =>
          let bag := doc2bow d lemmas
          if bag.isEmpty then Except.ok []
          else Except.ok (ls (tf bag))

/-- The argument of `TupleModel.topic_vector`: Python detects by the shape
of the first element whether the list holds `(lemma, category)` tuples or
pre-normalized `"lemma/category"` strings; mixed lists are not accepted. -/
inductive LemmaArg where
  | tuples : List (String × String) → LemmaArg
  | strs : List String → LemmaArg

def missingSeparatorMsg : String := "assert failed: all contain a slash"

/-- Embedding of `TupleModel.topic_vector(lemmas)` (tuplemodel.py): an
empty list returns `[]`; a tuple list is normalized with `w_from_lemma`;
a string list must have a '/' in every element (`assert`), a violation is
fatal; then the base `Model.topic_vector` runs. -/
def TupleModel_topic_vector {W T : Type} (dict : Option Dictionary)
    (tfidf : Option (List (Nat × Nat) → W)) (lsi : Option (W → List T))
    (arg : LemmaArg) : Except String (List T) :=
  match arg with
  | LemmaArg.tuples l =>
    if l.isEmpty then Except.ok []
    else Model_topic_vector dict tfidf lsi (l.map (fun p => w_from_lemma p.1 p.2))
  | LemmaArg.strs l =>
    if l.isEmpty then Except.ok []
    else if l.all (fun s => s.data.contains '/') then Model_topic_vector dict tfidf lsi l
    else Except.error missingSeparatorMsg

lemma doc2bow_eq_nil_of_all_unknown (dic : Dictionary) (lemmas : List String)
    (h : ∀ l ∈ lemmas, l ∉ dic.tokens) : doc2bow dic lemmas = [] := by
  simp only [doc2bow]
  rw [List.filterMap_eq_nil_iff]
  intro p hp
  have hpt : p.2 ∈ dic.tokens := by
    obtain ⟨i, t⟩ := p
    exact List.getElem?_mem (List.mk_mem_enum_iff_getElem?.mp hp)
  have hcount : lemmas.count p.2 = 0 := by
    rw [List.count_eq_zero]
    intro hmem
    exact h p.2 hmem hpt
  simp [hcount]

/-- C4: `topic_vector` returns an empty topic vector in the two
defined-empty cases: an empty input list yields `Except.ok []` even when
every artifact is absent (`none`), so no lookup or artifact load is
performed; and a (possibly non-empty) input whose keys are all absent
from the vocabulary yields `Except.ok []` as defined behavior, not an
error. -/
theorem topic_vector_defined_empty_cases {W T : Type} :
    (∀ (dict : Option Dictionary) (tfidf : Option (List (Nat × Nat) → W))
      (lsi : Option (W → List T)),
      Model_topic_vector dict tfidf lsi [] = Except.ok [])
    ∧ (∀ (dic : Dictionary) (tf : List (Nat × Nat) → W) (ls : W → List T)
        (lemmas : List String), (∀ l ∈ lemmas, l ∉ dic.tokens) →
      Model_topic_vector (some dic) (some tf) (some ls) lemmas = Except.ok []) := by
  constructor
  · intro dict tfidf lsi
    rfl
  · intro dic tf ls lemmas h
    by_cases he : lemmas.isEmpty
    · simp [Model_topic_vector, he]
    · simp only [Model_topic_vector, he, if_false, loadArtifact]
      simp [doc2bow_eq_nil_of_all_unknown dic lemmas h]

theorem topic_vector_defined_empty_cases_witness :
    (∀ l ∈ ["khljsdf/xx"], l ∉ (Dictionary.mk ["maður/kk", "búð/kvk"] 2 (fun _ => 1)).tokens)
    ∧ Model_topic_vector (some (Dictionary.mk ["maður/kk", "búð/kvk"] 2 (fun _ => 1)))
        (some (fun b : List (Nat × Nat) => b)) (some (fun b => b))
        ["khljsdf/xx"] = Except.ok [] :=
  ⟨by decide,
    (topic_vector_defined_empty_cases).2 (Dictionary.mk ["maður/kk", "búð/kvk"] 2 (fun _ => 1))
      (fun b => b) (fun b => b) ["khljsdf/xx"] (by decide)⟩

/-- C5: every string element passed to `topic_vector` must contain the key
separator '/'; a list with an element lacking the separator is a fatal
contract error: the call returns `Except.error` (no partial result), never
a silent skip. -/
theorem topic_vector_missing_separator_fatal {W T : Type} :
    ∀ (dict : Option Dictionary) (tfidf : Option (List (Nat × Nat) → W))
      (lsi : Option (W → List T)) (l : List String),
      (∃ s ∈ l, '/' ∉ s.data) →
      TupleModel_topic_vector dict tfidf lsi (LemmaArg.strs l)
        = Except.error missingSeparatorMsg := by
  intro dict tfidf lsi l h
  obtain ⟨s, hs, hsep⟩ := h
  have hne : l.isEmpty = false := by
    cases l with
    | nil => cases hs
    | cons a l => rfl
  have hall : l.all (fun s => s.data.contains '/') = false := by
    rw [List.all_eq_false]
    exact ⟨s, hs, by simpa using hsep⟩
  have h1 : ¬(l.isEmpty = true) := by simp [hne]
  have h2 : ¬((l.all fun s => s.data.contains '/') = true) := by
    rw [hall]; exact Bool.false_ne_true
  simp only [TupleModel_topic_vector]
  rw [if_neg h1, if_neg h2]

theorem topic_vector_missing_separator_fatal_witness :
    (∃ s ∈ ["nokey"], '/' ∉ s.data)
    ∧ TupleModel_topic_vector (none : Option Dictionary)
        (none : Option (List (Nat × Nat) → List (Nat × Nat)))
        (none : Option (List (Nat × Nat) → List (Nat × Nat)))
        (LemmaArg.strs ["nokey"]) = Except.error missingSeparatorMsg :=
  ⟨⟨"nokey", by decide, by decide⟩,
    topic_vector_missing_separator_fatal none none none ["nokey"]
      ⟨"nokey", by decide, by decide⟩⟩

/-! ## Training defaults and constructor defaults (model.py) -/

/-- Default of `min_count` on the composite `Model.train`. -/
def TRAIN_MIN_COUNT_DEFAULT : Nat := 3

/-- Default of `min_count` on `Model.train_dictionary`. -/
def TRAIN_DICTIONARY_MIN_COUNT_DEFAULT : Nat := 5

/-- The dictionary-training step exactly as the composite `Model.train`
invokes it: `self.train_dictionary(CorpusIterator(corpus, dictionary=None),
min_count=min_count, max_ratio=max_ratio)` — train's own `min_count` and
`max_ratio` (here `maxr`) are passed through explicitly, so the step's
default of 5 is never consulted. -/
def Model_train_dictionary_step (corpus : List (List String)) (min_count : Nat) (maxr : ℚ) :
    Except String Dictionary :=
  train_dictionary (corpusIteratorKeys corpus) min_count maxr

def exceptIsOk {ε α : Type} : Except ε α → Bool
  | Except.ok _ => true
  | Except.error _ => false

/-- A concrete corpus on which the two `min_count` defaults behave
differently: one key occurring in four documents. -/
def fourDocCorpus : List (List String) := [["a/kk"], ["a/kk"], ["a/kk"], ["a/kk"]]

lemma fourDocCorpus_ok_at_3 :
    exceptIsOk (Model_train_dictionary_step fourDocCorpus 3 1) = true := by
  have hiter : corpusIteratorKeys fourDocCorpus = fourDocCorpus := by decide
  have htok : (buildDictionary fourDocCorpus).tokens = ["a/kk"] := by decide
  have hts : (filter_extremes (buildDictionary fourDocCorpus) 3 1).tokens = ["a/kk"] := by
    simp only [filter_extremes]
    rw [htok]
    simp only [List.filter_cons]
    simp
    decide
  simp only [Model_train_dictionary_step, hiter, train_dictionary]
  rw [if_pos (Or.inl (by norm_num : (0 : ℕ) < 3)), hts]
  simp [exceptIsOk]

lemma fourDocCorpus_error_at_5 :
    exceptIsOk (Model_train_dictionary_step fourDocCorpus 5 1) = false := by
  have hiter : corpusIteratorKeys fourDocCorpus = fourDocCorpus := by decide
  have htok : (buildDictionary fourDocCorpus).tokens = ["a/kk"] := by decide
  have hts : (filter_extremes (buildDictionary fourDocCorpus) 5 1).tokens = [] := by
    simp only [filter_extremes]
    rw [htok]
    simp only [List.filter_cons]
    simp
    decide
  simp only [Model_train_dictionary_step, hiter, train_dictionary]
  rw [if_pos (Or.inl (by norm_num : (0 : ℕ) < 5)), hts]
  simp [exceptIsOk]

/-- C7: the pruning parameter `min_count` defaults to 3 on the composite
`train` entry point and to 5 on the underlying `train_dictionary` step;
the defaults are independent: `train` passes its own `min_count` through
to the dictionary step unchanged, and there is a corpus on which training
the dictionary with `min_count = 3` succeeds while `min_count = 5` fails,
so the passed-through value is observably not the step's default. -/
theorem min_count_defaults_independent :
    TRAIN_MIN_COUNT_DEFAULT = 3
    ∧ TRAIN_DICTIONARY_MIN_COUNT_DEFAULT = 5
    ∧ (∀ (corpus : List (List String)) (mc : Nat) (maxr : ℚ),
        Model_train_dictionary_step corpus mc maxr
          = train_dictionary (corpusIteratorKeys corpus) mc maxr)
    ∧ (∃ corpus : List (List String),
        exceptIsOk (Model_train_dictionary_step corpus TRAIN_MIN_COUNT_DEFAULT 1) = true
        ∧ exceptIsOk (Model_train_dictionary_step corpus TRAIN_DICTIONARY_MIN_COUNT_DEFAULT 1)
            = false) := by
  exact ⟨rfl, rfl, fun _ _ _ => rfl,
    ⟨fourDocCorpus, fourDocCorpus_ok_at_3, fourDocCorpus_error_at_5⟩⟩

/-- Default of the `dimensions` constructor parameter (`_DEFAULT_DIMENSIONS`). -/
def DEFAULT_DIMENSIONS : Int := 200

/-- Embedding of the `dimensions` handling in `Model.__init__`:
`self._dimensions = dimensions or self._DEFAULT_DIMENSIONS`. The Python
`or` takes the default whenever `dimensions` is falsy: `None` (modelled
as `none`) or `0`. -/
def Model_init_dimensions (dimensions : Option Int) : Int :=
  match dimensions with
  | none => DEFAULT_DIMENSIONS
  | some d => if d = 0 then DEFAULT_DIMENSIONS else d

/-- C10: a model constructed with `dimensions = 0` (or `None`) silently
gets the default of 200 dimensions; an explicit zero is neither honored
nor rejected as an error, while any non-zero value is kept as given. -/
theorem dimensions_zero_gets_default :
    Model_init_dimensions (some 0) = 200
    ∧ Model_init_dimensions none = 200
    ∧ DEFAULT_DIMENSIONS = 200
    ∧ (∀ d : Int, d ≠ 0 → Model_init_dimensions (some d) = d) := by
  refine ⟨rfl, rfl, rfl, fun d hd => ?_⟩
  simp [Model_init_dimensions, hd]

theorem dimensions_zero_gets_default_witness :
    ((7 : Int) ≠ 0 ∧ Model_init_dimensions (some 7) = 7)
    ∧ Model_init_dimensions (some 0) = 200 :=
  ⟨⟨by decide, dimensions_zero_gets_default.2.2.2 7 (by decide)⟩,
    dimensions_zero_gets_default.1⟩

/-! ## File-system effect of the composite train (model.py, `Model.train`) -/

/-- The model directory as a set of present files. Only presence is
tracked; artifact contents are abstracted. -/
abbrev FS := String → Bool

def addFile (fs : FS) (f : String) : FS := fun x => if x = f then true else fs x

def removeFile (fs : FS) (f : String) : FS := fun x => if x = f then false else fs x

/-- Embedding of `Model._filename_from_ext`:
`os.path.join(directory, name + "." + ext)`. -/
def filename_from_ext (dir name ext : String) : String :=
  dir ++ "/" ++ name ++ "." ++ ext

def dictionary_filename (dir name : String) : String := filename_from_ext dir name "dict"

def plain_corpus_filename (dir name : String) : String := filename_from_ext dir name "corpus"

def tfidf_corpus_filename (dir name : String) : String :=
  filename_from_ext dir name "corpus-tfidf"

def tfidf_model_filename (dir name : String) : String := filename_from_ext dir name "tfidf"

def lsi_model_filename (dir name : String) : String := filename_from_ext dir name "lsi"

/-- Labels of the five training steps, in the order `Model.train` runs them. -/
inductive TrainStep where
  | dictionary : TrainStep
  | plainCorpus : TrainStep
  | tfidfModel : TrainStep
  | tfidfCorpus : TrainStep
  | lsiModel : TrainStep
deriving DecidableEq

/-- File effect of `train_dictionary`: `dic.save(self.dictionary_filename)`. -/
def train_dictionary_fs (dir name : String) (fs : FS) : TrainStep × FS :=
  (TrainStep.dictionary, addFile fs (dictionary_filename dir name))

/-- File effect of `train_plain_corpus`: `MmCorpus.serialize` writes the
corpus file and its random-access `.index` file. -/
def train_plain_corpus_fs (dir name : String) (fs : FS) : TrainStep × FS :=
  (TrainStep.plainCorpus,
    addFile (addFile fs (plain_corpus_filename dir name))
      (plain_corpus_filename dir name ++ ".index"))

/-- File effect of `train_tfidf_model`: `tfidf.save`. -/
def train_tfidf_model_fs (dir name : String) (fs : FS) : TrainStep × FS :=
  (TrainStep.tfidfModel, addFile fs (tfidf_model_filename dir name))

/-- File effect of `train_tfidf_corpus`: `MmCorpus.serialize` writes the
weighted corpus file and its `.index` file. -/
def train_tfidf_corpus_fs (dir name : String) (fs : FS) : TrainStep × FS :=
  (TrainStep.tfidfCorpus,
    addFile (addFile fs (tfidf_corpus_filename dir name))
      (tfidf_corpus_filename dir name ++ ".index"))

/-- File effect of `train_lsi_model`: `lsi.save`. -/
def train_lsi_model_fs (dir name : String) (fs : FS) : TrainStep × FS :=
  (TrainStep.lsiModel, addFile fs (lsi_model_filename dir name))

/-- Embedding of the file-system effect of `Model.train(corpus, keep_temp_files)`:
run the five steps in order, then, unless `keep_temp_files`, `os.remove`
the plain corpus file, the TF-IDF corpus file and their two `.index`
files (in that source order). The returned trace lists the executed steps
in execution order. -/
def Model_train_fs (dir name : String) (keep_temp_files : Bool) (fs : FS) :
    List TrainStep × FS :=
  let s1 := train_dictionary_fs dir name fs
  let s2 := train_plain_corpus_fs dir name s1.2
  let s3 := train_tfidf_model_fs dir name s2.2
  let s4 := train_tfidf_corpus_fs dir name s3.2
  let s5 := train_lsi_model_fs dir name s4.2
  let trace := [s1.1, s2.1, s3.1, s4.1, s5.1]
  if keep_temp_files then (trace, s5.2)
  else
    (trace,
      removeFile
        (removeFile
          (removeFile
            (removeFile s5.2 (plain_corpus_filename dir name))
            (tfidf_corpus_filename dir name))
          (plain_corpus_filename dir name ++ ".index"))
        (tfidf_corpus_filename dir name ++ ".index"))

lemma filename_from_ext_length (dir name ext : String) :
    (filename_from_ext dir name ext).length
      = dir.length + name.length + ext.length + 2 := by
  have h1 : ("/" : String).length = 1 := rfl
  have h2 : ("." : String).length = 1 := rfl
  simp [filename_from_ext, String.length_append, h1, h2]
  omega

lemma string_append_length (s t : String) : (s ++ t).length = s.length + t.length :=
  String.length_append s t

lemma perm_scratch_lengths (dir name : String) :
    (dictionary_filename dir name).length = dir.length + name.length + 6
    ∧ (tfidf_model_filename dir name).length = dir.length + name.length + 7
    ∧ (lsi_model_filename dir name).length = dir.length + name.length + 5
    ∧ (plain_corpus_filename dir name).length = dir.length + name.length + 8
    ∧ (tfidf_corpus_filename dir name).length = dir.length + name.length + 14
    ∧ (plain_corpus_filename dir name ++ ".index").length = dir.length + name.length + 14
    ∧ (tfidf_corpus_filename dir name ++ ".index").length = dir.length + name.length + 20 := by
  have h1 : ("dict" : String).length = 4 := rfl
  have h2 : ("tfidf" : String).length = 5 := rfl
  have h3 : ("lsi" : String).length = 3 := rfl
  have h4 : ("corpus" : String).length = 6 := rfl
  have h5 : ("corpus-tfidf" : String).length = 12 := rfl
  have h6 : (".index" : String).length = 6 := rfl
  refine ⟨?_, ?_, ?_, ?_, ?_, ?_, ?_⟩ <;>
    simp [dictionary_filename, tfidf_model_filename, lsi_model_filename,
      plain_corpus_filename, tfidf_corpus_filename, filename_from_ext_length,
      string_append_length, h1, h2, h3, h4, h5, h6]

lemma addFile_self (fs : FS) (f : String) : addFile fs f f = true := by simp [addFile]

lemma addFile_true (fs : FS) (f x : String) (h : fs x = true) : addFile fs f x = true := by
  unfold addFile
  split
  · rfl
  · exact h

lemma addFile_ne (fs : FS) (f x : String) (h : x ≠ f) : addFile fs f x = fs x := if_neg h

lemma removeFile_self (fs : FS) (f : String) : removeFile fs f f = false := by
  simp [removeFile]

lemma removeFile_false (fs : FS) (f x : String) (h : fs x = false) :
    removeFile fs f x = false := by
  unfold removeFile
  split
  · rfl
  · exact h

lemma removeFile_ne (fs : FS) (f x : String) (h : x ≠ f) : removeFile fs f x = fs x :=
  if_neg h

lemma ne_of_length_ne {s t : String} (h : s.length ≠ t.length) : s ≠ t :=
  fun he => h (he ▸ rfl)

lemma Model_train_fs_false_snd (dir name : String) (fs : FS) :
    (Model_train_fs dir name false fs).2
      = removeFile (removeFile (removeFile (removeFile
          (addFile (addFile (addFile (addFile (addFile (addFile (addFile fs
            (dictionary_filename dir name))
            (plain_corpus_filename dir name))
            (plain_corpus_filename dir name ++ ".index"))
            (tfidf_model_filename dir name))
            (tfidf_corpus_filename dir name))
            (tfidf_corpus_filename dir name ++ ".index"))
            (lsi_model_filename dir name))
          (plain_corpus_filename dir name))
          (tfidf_corpus_filename dir name))
          (plain_corpus_filename dir name ++ ".index"))
        (tfidf_corpus_filename dir name ++ ".index") := rfl

/-- C6: the composite `train` runs the five training steps in order
(dictionary, plain corpus, TF-IDF model, TF-IDF corpus, LSI model) and,
with `keep_temp_files = false`, afterwards deletes exactly the plain
corpus file, the TF-IDF corpus file and their two `.index` files: those
four are absent afterwards, the three permanent artifact files
(dictionary, TF-IDF model, LSI model) are present, and the presence of
every other file in the directory is untouched. -/
theorem train_runs_in_order_and_deletes_scratch (dir name : String) (fs : FS) :
    (Model_train_fs dir name false fs).1
      = [TrainStep.dictionary, TrainStep.plainCorpus, TrainStep.tfidfModel,
          TrainStep.tfidfCorpus, TrainStep.lsiModel]
    ∧ (Model_train_fs dir name false fs).2 (dictionary_filename dir name) = true
    ∧ (Model_train_fs dir name false fs).2 (tfidf_model_filename dir name) = true
    ∧ (Model_train_fs dir name false fs).2 (lsi_model_filename dir name) = true
    ∧ (Model_train_fs dir name false fs).2 (plain_corpus_filename dir name) = false
    ∧ (Model_train_fs dir name false fs).2 (tfidf_corpus_filename dir name) = false
    ∧ (Model_train_fs dir name false fs).2
        (plain_corpus_filename dir name ++ ".index") = false
    ∧ (Model_train_fs dir name false fs).2
        (tfidf_corpus_filename dir name ++ ".index") = false
    ∧ (∀ f : String,
        f ≠ dictionary_filename dir name →
        f ≠ tfidf_model_filename dir name →
        f ≠ lsi_model_filename dir name →
        f ≠ plain_corpus_filename dir name →
        f ≠ tfidf_corpus_filename dir name →
        f ≠ plain_corpus_filename dir name ++ ".index" →
        f ≠ tfidf_corpus_filename dir name ++ ".index" →
        (Model_train_fs dir name false fs).2 f = fs f) := by
  obtain ⟨hD, hT, hL, hP, hC, hPI, hCI⟩ := perm_scratch_lengths dir name
  refine ⟨rfl, ?_, ?_, ?_, ?_, ?_, ?_, ?_, ?_⟩
  · rw [Model_train_fs_false_snd,
      removeFile_ne _ _ _ (ne_of_length_ne (by omega)),
      removeFile_ne _ _ _ (ne_of_length_ne (by omega)),
      removeFile_ne _ _ _ (ne_of_length_ne (by omega)),
      removeFile_ne _ _ _ (ne_of_length_ne (by omega))]
    exact addFile_true _ _ _ (addFile_true _ _ _ (addFile_true _ _ _ (addFile_true _ _ _
      (addFile_true _ _ _ (addFile_true _ _ _ (addFile_self _ _))))))
  · rw [Model_train_fs_false_snd,
      removeFile_ne _ _ _ (ne_of_length_ne (by omega)),
      removeFile_ne _ _ _ (ne_of_length_ne (by omega)),
      removeFile_ne _ _ _ (ne_of_length_ne (by omega)),
      removeFile_ne _ _ _ (ne_of_length_ne (by omega))]
    exact addFile_true _ _ _ (addFile_true _ _ _ (addFile_true _ _ _ (addFile_self _ _)))
  · rw [Model_train_fs_false_snd,
      removeFile_ne _ _ _ (ne_of_length_ne (by omega)),
      removeFile_ne _ _ _ (ne_of_length_ne (by omega)),
      removeFile_ne _ _ _ (ne_of_length_ne (by omega)),
      removeFile_ne _ _ _ (ne_of_length_ne (by omega))]
    exact addFile_self _ _
  · rw [Model_train_fs_false_snd]
    exact removeFile_false _ _ _ (removeFile_false _ _ _ (removeFile_false _ _ _
      (removeFile_self _ _)))
  · rw [Model_train_fs_false_snd]
    exact removeFile_false _ _ _ (removeFile_false _ _ _ (removeFile_self _ _))
  · rw [Model_train_fs_false_snd]
    exact removeFile_false _ _ _ (removeFile_self _ _)
  · rw [Model_train_fs_false_snd]
    exact removeFile_self _ _
  · intro f hfD hfT hfL hfP hfC hfPI hfCI
    rw [Model_train_fs_false_snd,
      removeFile_ne _ _ _ hfCI, removeFile_ne _ _ _ hfPI,
      removeFile_ne _ _ _ hfC, removeFile_ne _ _ _ hfP,
      addFile_ne _ _ _ hfL, addFile_ne _ _ _ hfCI, addFile_ne _ _ _ hfC,
      addFile_ne _ _ _ hfT, addFile_ne _ _ _ hfPI, addFile_ne _ _ _ hfP,
      addFile_ne _ _ _ hfD]

theorem train_runs_in_order_and_deletes_scratch_witness :
    (Model_train_fs "models" "test" false (fun _ => false)).2
        (dictionary_filename "models" "test") = true
    ∧ (Model_train_fs "models" "test" false (fun _ => false)).2
        (plain_corpus_filename "models" "test") = false
    ∧ ("other" ≠ dictionary_filename "models" "test"
        ∧ (Model_train_fs "models" "test" false (fun _ => false)).2 "other" = false) :=
  ⟨(train_runs_in_order_and_deletes_scratch "models" "test" (fun _ => false)).2.1,
    (train_runs_in_order_and_deletes_scratch "models" "test" (fun _ => false)).2.2.2.2.1,
    by decide,
    (train_runs_in_order_and_deletes_scratch "models" "test" (fun _ => false)).2.2.2.2.2.2.2.2
      "other" (by decide) (by decide) (by decide) (by decide) (by decide) (by decide)
      (by decide)⟩

/-! ## Cosine similarity (model.py `Model.similarity`, gensim `matutils.cossim`)

The similarity computation is delegated to `gensim.matutils.cossim`; its
float arithmetic is modelled over the reals. A sparse topic vector is a
list of `(index, value)` pairs; `cossim` first converts both operands to
dicts (later entries override earlier ones with the same index), returns
`0` when either dict is empty, and otherwise divides the dot product by
the product of the Euclidean norms. In the embedding a division by a zero
norm yields `0` (Lean's division convention), standing in for the
library's positive-norm assertion. -/

/-- Value of index `i` in the dict built from sparse vector `v`
(`0` when absent); the last entry with a given index wins, as in a
Python dict built from a pair list. -/
noncomputable def dictGet (v : List (ℕ × ℝ)) (i : ℕ) : ℝ :=
  ((v.reverse).lookup i).getD 0

/-- The key set of the dict built from sparse vector `v`. -/
def dictKeys (v : List (ℕ × ℝ)) : Finset ℕ :=
  (v.map Prod.fst).toFinset

/-- Embedding of `gensim.matutils.cossim(vec1, vec2)`: `0` when either
vector is empty; otherwise the dot product over the second vector's keys
(values absent from the first vector contribute `0`, so the iteration
order/swap in the library is immaterial) divided by the product of the
two Euclidean norms. -/
noncomputable def cossim (vec1 vec2 : List (ℕ × ℝ)) : ℝ :=
  if vec1 = [] ∨ vec2 = [] then 0
  else (∑ i ∈ dictKeys vec2, dictGet vec2 i * dictGet vec1 i)
    / (Real.sqrt (∑ i ∈ dictKeys vec1, dictGet vec1 i ^ 2)
        * Real.sqrt (∑ i ∈ dictKeys vec2, dictGet vec2 i ^ 2))

/-- Embedding of the static `Model.similarity`, which simply delegates to
`matutils.cossim`. -/
noncomputable def Model_similarity (topic_vector_a topic_vector_b : List (ℕ × ℝ)) : ℝ :=
  cossim topic_vector_a topic_vector_b

/-- Cosine similarity as the specification words it: the normalized
dot product of the two vectors viewed in their shared index space
(the union of the two supports). -/
noncomputable def cosineSpec (v1 v2 : List (ℕ × ℝ)) : ℝ :=
  (∑ i ∈ dictKeys v1 ∪ dictKeys v2, dictGet v1 i * dictGet v2 i)
    / (Real.sqrt (∑ i ∈ dictKeys v1 ∪ dictKeys v2, dictGet v1 i ^ 2)
        * Real.sqrt (∑ i ∈ dictKeys v1 ∪ dictKeys v2, dictGet v2 i ^ 2))

lemma dictGet_eq_zero {v : List (ℕ × ℝ)} {i : ℕ} (h : i ∉ dictKeys v) : dictGet v i = 0 := by
  have hm : ∀ p ∈ v.reverse, i != p.1 := by
    intro p hp
    have : p.1 ∈ v.map Prod.fst := List.mem_map_of_mem _ (List.mem_reverse.mp hp)
    have hne : i ≠ p.1 := fun he => h (by simpa [dictKeys, he] using List.mem_toFinset.mpr this)
    simpa using hne
  simp [dictGet, List.lookup_eq_none_iff.mpr hm]

lemma dot_eq_union (v1 v2 : List (ℕ × ℝ)) :
    ∑ i ∈ dictKeys v2, dictGet v2 i * dictGet v1 i
      = ∑ i ∈ dictKeys v1 ∪ dictKeys v2, dictGet v1 i * dictGet v2 i := by
  rw [Finset.sum_congr rfl (fun i _ => mul_comm (dictGet v2 i) (dictGet v1 i))]
  exact Finset.sum_subset Finset.subset_union_right
    (fun i _ hi => by rw [dictGet_eq_zero hi, mul_zero])

lemma normsq_eq_union_left (v1 v2 : List (ℕ × ℝ)) :
    ∑ i ∈ dictKeys v1, dictGet v1 i ^ 2
      = ∑ i ∈ dictKeys v1 ∪ dictKeys v2, dictGet v1 i ^ 2 :=
  Finset.sum_subset Finset.subset_union_left
    (fun i _ hi => by rw [dictGet_eq_zero hi]; ring)

lemma normsq_eq_union_right (v1 v2 : List (ℕ × ℝ)) :
    ∑ i ∈ dictKeys v2, dictGet v2 i ^ 2
      = ∑ i ∈ dictKeys v1 ∪ dictKeys v2, dictGet v2 i ^ 2 :=
  Finset.sum_subset Finset.subset_union_right
    (fun i _ hi => by rw [dictGet_eq_zero hi]; ring)

lemma abs_sum_mul_le_sqrt (s : Finset ℕ) (f g : ℕ → ℝ) :
    |∑ i ∈ s, f i * g i|
      ≤ Real.sqrt (∑ i ∈ s, f i ^ 2) * Real.sqrt (∑ i ∈ s, g i ^ 2) := by
  rw [abs_le]
  constructor
  · have h := Real.sum_mul_le_sqrt_mul_sqrt s (fun i => -f i) g
    simp only [neg_mul, Finset.sum_neg_distrib, neg_sq] at h
    linarith
  · exact Real.sum_mul_le_sqrt_mul_sqrt s f g

lemma cossim_eq_cosineSpec {v1 v2 : List (ℕ × ℝ)} (h1 : v1 ≠ []) (h2 : v2 ≠ []) :
    cossim v1 v2 = cosineSpec v1 v2 := by
  rw [cossim, if_neg (by simp [h1, h2]), cosineSpec,
    dot_eq_union v1 v2, normsq_eq_union_left v1 v2, normsq_eq_union_right v1 v2]

lemma cossim_mem_Icc (v1 v2 : List (ℕ × ℝ)) : cossim v1 v2 ∈ Set.Icc (-1 : ℝ) 1 := by
  by_cases he : v1 = [] ∨ v2 = []
  · rw [cossim, if_pos he]
    constructor <;> norm_num
  · push_neg at he
    rw [cossim_eq_cosineSpec he.1 he.2, cosineSpec]
    set s := dictKeys v1 ∪ dictKeys v2 with hs
    set A := ∑ i ∈ s, dictGet v1 i * dictGet v2 i with hA
    set B := Real.sqrt (∑ i ∈ s, dictGet v1 i ^ 2) with hB
    set C := Real.sqrt (∑ i ∈ s, dictGet v2 i ^ 2) with hC
    have habs : |A| ≤ B * C := abs_sum_mul_le_sqrt s _ _
    have hBC : 0 ≤ B * C := mul_nonneg (Real.sqrt_nonneg _) (Real.sqrt_nonneg _)
    rcases eq_or_lt_of_le hBC with hz | hpos
    · rw [← hz, div_zero]
      constructor <;> norm_num
    · rw [Set.mem_Icc, ← abs_le, abs_div, abs_of_pos hpos]
      exact (div_le_one hpos).mpr habs

/-- C8: `similarity` is the cosine similarity of the two sparse topic
vectors in their shared index space (it equals the normalized dot product
over the union of the supports), its value always lies in `[-1, 1]`, and
similarity against an empty vector is exactly `0`. -/
theorem similarity_is_cosine_and_bounded :
    (∀ a b : List (ℕ × ℝ), Model_similarity a b ∈ Set.Icc (-1 : ℝ) 1)
    ∧ (∀ b : List (ℕ × ℝ), Model_similarity [] b = 0)
    ∧ (∀ a : List (ℕ × ℝ), Model_similarity a [] = 0)
    ∧ (∀ a b : List (ℕ × ℝ), a ≠ [] → b ≠ [] →
        Model_similarity a b = cosineSpec a b) := by
  refine ⟨cossim_mem_Icc, ?_, ?_, fun a b ha hb => cossim_eq_cosineSpec ha hb⟩
  · intro b
    rw [Model_similarity, cossim, if_pos (Or.inl rfl)]
  · intro a
    rw [Model_similarity, cossim, if_pos (Or.inr rfl)]

theorem similarity_is_cosine_and_bounded_witness :
    ([((0 : ℕ), (1 : ℝ))] ≠ ([] : List (ℕ × ℝ)))
    ∧ Model_similarity [((0 : ℕ), (1 : ℝ))] [((0 : ℕ), (1 : ℝ))]
        = cosineSpec [((0 : ℕ), (1 : ℝ))] [((0 : ℕ), (1 : ℝ))] :=
  ⟨List.cons_ne_nil _ _,
    similarity_is_cosine_and_bounded.2.2.2 [((0 : ℕ), (1 : ℝ))] [((0 : ℕ), (1 : ℝ))]
      (List.cons_ne_nil _ _) (List.cons_ne_nil _ _)⟩

end GreynirTopic
